import Mathlib

set_option maxRecDepth 4000

/-!
Shallow embedding of `src/FindTriangles.cpp`.

Coordinates are modelled as rationals; the source's `float` arithmetic is
embedded as exact arithmetic.  Every definition below mirrors a function of
the source file (names are kept), with C++ loops rendered as `List.foldl`
over the same index ranges and the same bodies.
-/

namespace FindTriangles

/-- Source `compare_tolerance` (line 11): margin of error for comparing floats. -/
def compare_tolerance : ℚ := 1 / 100000

/-- Source `point` (lines 16-30): two coordinates. -/
structure point where
  x : ℚ
  y : ℚ
deriving DecidableEq

/-- Source `point::operator==` (lines 26-29): approximate equality, both
coordinate differences strictly below `compare_tolerance`. -/
def ptEq (a b : point) : Bool :=
  |a.x - b.x| < compare_tolerance ∧ |a.y - b.y| < compare_tolerance

/-- Source `line_segment` (lines 34-48): two endpoints. -/
structure line_segment where
  p1 : point
  p2 : point
deriving DecidableEq

/-- Source `triangle` (lines 51-62): three points. -/
structure triangle where
  p1 : point
  p2 : point
  p3 : point
deriving DecidableEq

/-- Source `find_point` (lines 65-68): is a point contained (under `==`,
i.e. `ptEq`) in a vector of points. -/
def find_point (points : List point) (pt : point) : Bool :=
  points.any (fun p => ptEq p pt)

/-- Denominator of the parametric intersection formulas
(source line 125): `(x1-x2)(y3-y4) - (y1-y2)(x3-x4)`. -/
def denominator (A B C D : point) : ℚ :=
  (A.x - B.x) * (C.y - D.y) - (A.y - B.y) * (C.x - D.x)

/-- Parameter `t` along segment `A→B` (source line 129). -/
def tparam (A B C D : point) : ℚ :=
  ((A.x - C.x) * (C.y - D.y) - (A.y - C.y) * (C.x - D.x)) / denominator A B C D

/-- Parameter `u` along segment `C→D` (source line 133). -/
def uparam (A B C D : point) : ℚ :=
  ((A.x - C.x) * (A.y - B.y) - (A.y - C.y) * (A.x - B.x)) / denominator A B C D

/-- Source `calc_intersection` (lines 102-139), result as an `Option`:
`none` when the function returns `false`, `some pt` when it returns `true`
with `pt` the output parameter. -/
def calc_intersection (A B C D : point) : Option point :=
  if |denominator A B C D| < compare_tolerance then none
  else if tparam A B C D < 0 ∨ 1 < tparam A B C D then none
  else if uparam A B C D < 0 ∨ 1 < uparam A B C D then none
  else some ⟨A.x + tparam A B C D * (B.x - A.x), A.y + tparam A B C D * (B.y - A.y)⟩

/-- Source `calc_intersection` with the out-parameter made explicit: given the
caller's prior value of `pt`, return the pair (returned bool, final value of
`pt`).  The source overwrites `pt` with `{0,0}` (line 104) before any check. -/
def calc_intersection_out (A B C D : point) (_pt_in : point) : Bool × point :=
  let pt : point := ⟨0, 0⟩
  if |denominator A B C D| < compare_tolerance then (false, pt)
  else if tparam A B C D < 0 ∨ 1 < tparam A B C D then (false, pt)
  else if uparam A B C D < 0 ∨ 1 < uparam A B C D then (false, pt)
  else (true, ⟨A.x + tparam A B C D * (B.x - A.x), A.y + tparam A B C D * (B.y - A.y)⟩)

/-- Source `calc_intersection` overload on segments (lines 144-147). -/
def calc_intersection_ls (ls1 ls2 : line_segment) : Option point :=
  calc_intersection ls1.p1 ls1.p2 ls2.p1 ls2.p2

/-- The `push_back` guarded by `find_point` in `calc_intersections`
(source lines 164-168). -/
def insert_pt (pts : List point) (pt : point) : List point :=
  if find_point pts pt then pts else pts ++ [pt]

/-- Out-of-range segment access default (never reached on in-range indices). -/
def default_segment : line_segment := ⟨⟨0, 0⟩, ⟨0, 0⟩⟩

/-- Record an intersection point into `intersects[i]` with the dedup guard. -/
def record_pt (xss : List (List point)) (i : ℕ) (pt : point) : List (List point) :=
  xss.set i (insert_pt (xss.getD i []) pt)

/-- Source `calc_intersections` (lines 155-172): for every pair `i < j` in
lexicographic loop order, compute the intersection and record it on both
segments.  The `intersects` parameter is the mutable vector of vectors. -/
def calc_intersections (segments : List line_segment) (intersects : List (List point)) :
    List (List point) :=
  (List.range (segments.length - 1)).foldl (fun acc i =>
    (List.range' (i + 1) (segments.length - (i + 1))).foldl (fun acc2 j =>
      match calc_intersection_ls (segments.getD i default_segment)
          (segments.getD j default_segment) with
      | some pt => record_pt (record_pt acc2 i pt) j pt
      | none => acc2) acc) intersects

/-- Innermost loop of `calc_triangles` (source lines 200-206): iterate
`last_point` over `intersects[segment_three_index]`. -/
def loop_last (xss : List (List point)) (i1 : ℕ) (startp middlep : point) (i3 : ℕ)
    (acc : List triangle) : List triangle :=
  (xss.getD i3 []).foldl (fun tr lastp =>
    if ptEq lastp middlep || !find_point (xss.getD i1 []) lastp then tr
    else tr ++ [⟨startp, middlep, lastp⟩]) acc

/-- Loop over `segment_three_index` (source lines 195-207). -/
def loop_k (xss : List (List point)) (i1 : ℕ) (startp middlep : point) (i2 : ℕ)
    (acc : List triangle) : List triangle :=
  (List.range' (i2 + 1) (xss.length - (i2 + 1))).foldl (fun tr i3 =>
    if find_point (xss.getD i3 []) middlep then loop_last xss i1 startp middlep i3 tr
    else tr) acc

/-- Loop over `middle_point` (source lines 190-208). -/
def loop_middle (xss : List (List point)) (i1 : ℕ) (startp : point) (i2 : ℕ)
    (acc : List triangle) : List triangle :=
  (xss.getD i2 []).foldl (fun tr middlep =>
    if ptEq middlep startp then tr else loop_k xss i1 startp middlep i2 tr) acc

/-- Loop over `segment_two_index` (source lines 185-209). -/
def loop_j (xss : List (List point)) (i1 : ℕ) (startp : point)
    (acc : List triangle) : List triangle :=
  (List.range' (i1 + 1) (xss.length - 1 - (i1 + 1))).foldl (fun tr i2 =>
    if find_point (xss.getD i2 []) startp then loop_middle xss i1 startp i2 tr
    else tr) acc

/-- Loop over `start_point` (source lines 183-210). -/
def loop_start (xss : List (List point)) (i1 : ℕ)
    (acc : List triangle) : List triangle :=
  (xss.getD i1 []).foldl (fun tr startp => loop_j xss i1 startp tr) acc

/-- Source `calc_triangles` on per-segment point sets (lines 178-212). -/
def calc_triangles_pts (intersects : List (List point)) (triangles : List triangle) :
    List triangle :=
  (List.range (intersects.length - 2)).foldl (fun tr i1 =>
    loop_start intersects i1 tr) triangles

/-- Top-level `calc_triangles` (source lines 217-225): build the per-segment
intersection sets, enumerate triangles into the caller's vector, and return
`triangles.size()`. -/
def calc_triangles (segments : List line_segment) (triangles : List triangle) :
    ℕ × List triangle :=
  let intersects := List.replicate segments.length ([] : List point)
  let intersects2 := calc_intersections segments intersects
  let triangles2 := calc_triangles_pts intersects2 triangles
  (triangles2.length, triangles2)

/-! ### Flat-map normal form of the triangle enumeration -/

/-- Triangles emitted by the innermost loop for fixed `i1, startp, middlep, i3`. -/
def gen_last (xss : List (List point)) (i1 : ℕ) (startp middlep : point) (i3 : ℕ) :
    List triangle :=
  (xss.getD i3 []).flatMap fun lastp =>
    if ptEq lastp middlep || !find_point (xss.getD i1 []) lastp then []
    else [⟨startp, middlep, lastp⟩]

/-- Triangles emitted by the `segment_three_index` loop. -/
def gen_k (xss : List (List point)) (i1 : ℕ) (startp middlep : point) (i2 : ℕ) :
    List triangle :=
  (List.range' (i2 + 1) (xss.length - (i2 + 1))).flatMap fun i3 =>
    if find_point (xss.getD i3 []) middlep then gen_last xss i1 startp middlep i3 else []

/-- Triangles emitted by the `middle_point` loop. -/
def gen_middle (xss : List (List point)) (i1 : ℕ) (startp : point) (i2 : ℕ) :
    List triangle :=
  (xss.getD i2 []).flatMap fun middlep =>
    if ptEq middlep startp then [] else gen_k xss i1 startp middlep i2

/-- Triangles emitted by the `segment_two_index` loop. -/
def gen_j (xss : List (List point)) (i1 : ℕ) (startp : point) : List triangle :=
  (List.range' (i1 + 1) (xss.length - 1 - (i1 + 1))).flatMap fun i2 =>
    if find_point (xss.getD i2 []) startp then gen_middle xss i1 startp i2 else []

/-- Triangles emitted by the `start_point` loop. -/
def gen_start (xss : List (List point)) (i1 : ℕ) : List triangle :=
  (xss.getD i1 []).flatMap fun startp => gen_j xss i1 startp

/-- All triangles emitted by the enumeration, in emission order. -/
def triangles_spec (xss : List (List point)) : List triangle :=
  (List.range (xss.length - 2)).flatMap fun i1 => gen_start xss i1

/-- A fold whose step appends a block per element is append of the flat map. -/
lemma foldl_eq_append_flatMap {α β : Type} (f : List β → α → List β) (g : α → List β)
    (hf : ∀ acc x, f acc x = acc ++ g x) :
    ∀ (l : List α) (acc : List β), l.foldl f acc = acc ++ l.flatMap g := by
  intro l
  induction l with
  | nil => intro acc; simp
  | cons x l ih =>
      intro acc
      rw [List.foldl_cons, List.flatMap_cons, hf, ih, List.append_assoc]

lemma loop_last_eq (xss : List (List point)) (i1 : ℕ) (startp middlep : point) (i3 : ℕ)
    (acc : List triangle) :
    loop_last xss i1 startp middlep i3 acc = acc ++ gen_last xss i1 startp middlep i3 := by
  apply foldl_eq_append_flatMap
  intro acc2 lastp
  split <;> simp_all

lemma loop_k_eq (xss : List (List point)) (i1 : ℕ) (startp middlep : point) (i2 : ℕ)
    (acc : List triangle) :
    loop_k xss i1 startp middlep i2 acc = acc ++ gen_k xss i1 startp middlep i2 := by
  apply foldl_eq_append_flatMap
  intro acc2 i3
  rw [loop_last_eq]
  split <;> simp_all

lemma loop_middle_eq (xss : List (List point)) (i1 : ℕ) (startp : point) (i2 : ℕ)
    (acc : List triangle) :
    loop_middle xss i1 startp i2 acc = acc ++ gen_middle xss i1 startp i2 := by
  apply foldl_eq_append_flatMap
  intro acc2 middlep
  rw [loop_k_eq]
  split <;> simp_all

lemma loop_j_eq (xss : List (List point)) (i1 : ℕ) (startp : point)
    (acc : List triangle) :
    loop_j xss i1 startp acc = acc ++ gen_j xss i1 startp := by
  apply foldl_eq_append_flatMap
  intro acc2 i2
  rw [loop_middle_eq]
  split <;> simp_all

lemma loop_start_eq (xss : List (List point)) (i1 : ℕ) (acc : List triangle) :
    loop_start xss i1 acc = acc ++ gen_start xss i1 := by
  apply foldl_eq_append_flatMap
  intro acc2 startp
  exact loop_j_eq xss i1 startp acc2

/-- The nested loops of `calc_triangles` equal the flat enumeration, appended
after the accumulator. -/
lemma calc_triangles_pts_eq (xss : List (List point)) (tr : List triangle) :
    calc_triangles_pts xss tr = tr ++ triangles_spec xss := by
  apply foldl_eq_append_flatMap
  intro acc i1
  exact loop_start_eq xss i1 acc

lemma mem_ite_nil_right {α : Type} {c : Prop} [Decidable c] {l : List α} {a : α} :
    (a ∈ if c then l else []) ↔ c ∧ a ∈ l := by
  split <;> simp_all

lemma mem_ite_nil_left {α : Type} {c : Prop} [Decidable c] {l : List α} {a : α} :
    (a ∈ if c then [] else l) ↔ ¬c ∧ a ∈ l := by
  split <;> simp_all

/-- Membership in the enumeration: exactly the 3-cycles the loops traverse. -/
lemma mem_triangles_spec (xss : List (List point)) (T : triangle) :
    T ∈ triangles_spec xss ↔
      ∃ i j k P Q R, i < j ∧ j < k ∧ k < xss.length ∧
        P ∈ xss.getD i [] ∧ find_point (xss.getD j []) P = true ∧
        Q ∈ xss.getD j [] ∧ ptEq Q P = false ∧
        find_point (xss.getD k []) Q = true ∧
        R ∈ xss.getD k [] ∧ ptEq R Q = false ∧
        find_point (xss.getD i []) R = true ∧ T = ⟨P, Q, R⟩ := by
  simp only [triangles_spec, gen_start, gen_j, gen_middle, gen_k, gen_last,
    List.mem_flatMap, List.mem_range, List.mem_range'_1, mem_ite_nil_right,
    mem_ite_nil_left, List.mem_singleton, Bool.or_eq_true, not_or,
    Bool.not_eq_true, Bool.not_eq_true', Bool.not_eq_false]
  constructor
  · rintro ⟨i1, hi1, startp, hstart, i2, hi2, hfind2, middlep, hmid, hne1,
      i3, hi3, hfind3, lastp, hlast, hcond, hT⟩
    exact ⟨i1, i2, i3, startp, middlep, lastp, by omega, by omega, by omega,
      hstart, hfind2, hmid, hne1, hfind3, hlast, hcond.1, hcond.2, hT⟩
  · rintro ⟨i, j, k, P, Q, R, hij, hjk, hk, hP, hfj, hQ, hne1, hfk, hR, hne2, hfi, hT⟩
    exact ⟨i, by omega, P, hP, j, ⟨by omega, by omega⟩, hfj, Q, hQ, hne1,
      k, ⟨by omega, by omega⟩, hfk, R, hR, ⟨hne2, hfi⟩, hT⟩

/-! ### Claim theorems -/

/-- C3: the triangle enumerator emits exactly one triangle per traversal
tuple: its output equals the flat enumeration over segment indices
`i < j < k`, and a triangle `(P, Q, R)` is emitted iff `P` lies in segment
`i`'s set, segment `j`'s set approximately contains `P`, `Q` lies in segment
`j`'s set with `Q` not approximately `P`, segment `k`'s set approximately
contains `Q`, `R` lies in segment `k`'s set with `R` not approximately `Q`,
and segment `i`'s set approximately contains `R`. -/
theorem calc_triangles_pts_characterization (xss : List (List point)) :
    calc_triangles_pts xss [] = triangles_spec xss ∧
    ∀ T : triangle, T ∈ calc_triangles_pts xss [] ↔
      ∃ i j k P Q R, i < j ∧ j < k ∧ k < xss.length ∧
        P ∈ xss.getD i [] ∧ find_point (xss.getD j []) P = true ∧
        Q ∈ xss.getD j [] ∧ ptEq Q P = false ∧
        find_point (xss.getD k []) Q = true ∧
        R ∈ xss.getD k [] ∧ ptEq R Q = false ∧
        find_point (xss.getD i []) R = true ∧ T = ⟨P, Q, R⟩ := by
  refine ⟨by simpa using calc_triangles_pts_eq xss [], fun T => ?_⟩
  rw [calc_triangles_pts_eq, List.nil_append]
  exact mem_triangles_spec xss T

/-- C1 (counterexample): the enumerator can emit a triangle whose first and
third vertices are approximately equal (the code never compares
`last_point` with `start_point`), and whose vertex `(0,0)` lies within
tolerance on all three contributing segments' sets, not exactly two. -/
theorem triangle_cycle_counterexample :
    calc_triangles_pts [[⟨0, 0⟩], [⟨0, 0⟩, ⟨1, 0⟩], [⟨1, 0⟩, ⟨0, 0⟩]] []
      = [⟨⟨0, 0⟩, ⟨1, 0⟩, ⟨0, 0⟩⟩] ∧
    ptEq ⟨0, 0⟩ ⟨0, 0⟩ = true ∧
    (∀ s ∈ [[⟨0, 0⟩], [⟨0, 0⟩, ⟨1, 0⟩], [⟨1, 0⟩, ⟨0, 0⟩]], find_point s ⟨0, 0⟩ = true) := by
  with_unfolding_all decide

/-- C1 (amended): every emitted triangle has its second vertex not
approximately equal to its first and its third not approximately equal to
its second, and for some contributing indices `i < j < k` each vertex lies
(the first exactly, the second within tolerance) on its two claimed
segments: `p1` on `i` and `j`, `p2` on `j` and `k`, `p3` on `k` and `i`. -/
theorem triangle_cycle_sound (xss : List (List point)) (T : triangle)
    (hT : T ∈ calc_triangles_pts xss []) :
    ∃ i j k, i < j ∧ j < k ∧ k < xss.length ∧
      ptEq T.p2 T.p1 = false ∧ ptEq T.p3 T.p2 = false ∧
      T.p1 ∈ xss.getD i [] ∧ find_point (xss.getD j []) T.p1 = true ∧
      T.p2 ∈ xss.getD j [] ∧ find_point (xss.getD k []) T.p2 = true ∧
      T.p3 ∈ xss.getD k [] ∧ find_point (xss.getD i []) T.p3 = true := by
  rw [calc_triangles_pts_eq, List.nil_append, mem_triangles_spec] at hT
  obtain ⟨i, j, k, P, Q, R, hij, hjk, hk, hP, hfj, hQ, hne1, hfk, hR, hne2, hfi, rfl⟩ := hT
  exact ⟨i, j, k, hij, hjk, hk, hne1, hne2, hP, hfj, hQ, hfk, hR, hfi⟩

set_option maxHeartbeats 1000000 in
/-- Witness for `triangle_cycle_sound` at a genuine triangle input. -/
theorem triangle_cycle_sound_witness :
    (⟨⟨0, 0⟩, ⟨1, 0⟩, ⟨0, 1⟩⟩ : triangle) ∈
      calc_triangles_pts [[⟨0, 0⟩, ⟨0, 1⟩], [⟨0, 0⟩, ⟨1, 0⟩], [⟨1, 0⟩, ⟨0, 1⟩]] [] ∧
    ∃ i j k, i < j ∧ j < k ∧
      k < ([[⟨0, 0⟩, ⟨0, 1⟩], [⟨0, 0⟩, ⟨1, 0⟩], [⟨1, 0⟩, ⟨0, 1⟩]] :
        List (List point)).length ∧
      ptEq ⟨1, 0⟩ ⟨0, 0⟩ = false ∧ ptEq ⟨0, 1⟩ ⟨1, 0⟩ = false ∧
      (⟨0, 0⟩ : point) ∈ ([[⟨0, 0⟩, ⟨0, 1⟩], [⟨0, 0⟩, ⟨1, 0⟩], [⟨1, 0⟩, ⟨0, 1⟩]] :
        List (List point)).getD i [] ∧
      find_point (([[⟨0, 0⟩, ⟨0, 1⟩], [⟨0, 0⟩, ⟨1, 0⟩], [⟨1, 0⟩, ⟨0, 1⟩]] :
        List (List point)).getD j []) ⟨0, 0⟩ = true ∧
      (⟨1, 0⟩ : point) ∈ ([[⟨0, 0⟩, ⟨0, 1⟩], [⟨0, 0⟩, ⟨1, 0⟩], [⟨1, 0⟩, ⟨0, 1⟩]] :
        List (List point)).getD j [] ∧
      find_point (([[⟨0, 0⟩, ⟨0, 1⟩], [⟨0, 0⟩, ⟨1, 0⟩], [⟨1, 0⟩, ⟨0, 1⟩]] :
        List (List point)).getD k []) ⟨1, 0⟩ = true ∧
      (⟨0, 1⟩ : point) ∈ ([[⟨0, 0⟩, ⟨0, 1⟩], [⟨0, 0⟩, ⟨1, 0⟩], [⟨1, 0⟩, ⟨0, 1⟩]] :
        List (List point)).getD k [] ∧
      find_point (([[⟨0, 0⟩, ⟨0, 1⟩], [⟨0, 0⟩, ⟨1, 0⟩], [⟨1, 0⟩, ⟨0, 1⟩]] :
        List (List point)).getD i []) ⟨0, 1⟩ = true :=
  ⟨by with_unfolding_all decide,
    triangle_cycle_sound [[⟨0, 0⟩, ⟨0, 1⟩], [⟨0, 0⟩, ⟨1, 0⟩], [⟨1, 0⟩, ⟨0, 1⟩]]
      ⟨⟨0, 0⟩, ⟨1, 0⟩, ⟨0, 1⟩⟩ (by with_unfolding_all decide)⟩

/-! ### Intersection calculator -/

/-- C2: `calc_intersection` returns no point when the absolute denominator is
below the tolerance, returns no point when `t` or `u` falls outside the
closed interval `[0,1]`, and otherwise returns exactly `A + t·(B−A)`. -/
theorem calc_intersection_characterization (A B C D : point) :
    (|denominator A B C D| < compare_tolerance → calc_intersection A B C D = none) ∧
    (compare_tolerance ≤ |denominator A B C D| →
      ((tparam A B C D < 0 ∨ 1 < tparam A B C D ∨
        uparam A B C D < 0 ∨ 1 < uparam A B C D) → calc_intersection A B C D = none) ∧
      (0 ≤ tparam A B C D → tparam A B C D ≤ 1 →
       0 ≤ uparam A B C D → uparam A B C D ≤ 1 →
        calc_intersection A B C D =
          some ⟨A.x + tparam A B C D * (B.x - A.x),
                A.y + tparam A B C D * (B.y - A.y)⟩)) := by
  refine ⟨fun h => by simp [calc_intersection, h], fun h => ⟨fun hout => ?_, ?_⟩⟩
  · have h' : ¬|denominator A B C D| < compare_tolerance := not_lt.mpr h
    simp only [calc_intersection, if_neg h']
    rcases hout with ht | ht | hu | hu <;>
      (split_ifs with h1 h2 <;> first | rfl | tauto)
  · intro ht0 ht1 hu0 hu1
    have h' : ¬|denominator A B C D| < compare_tolerance := not_lt.mpr h
    have hT : ¬(tparam A B C D < 0 ∨ 1 < tparam A B C D) := by
      push_neg; exact ⟨ht0, ht1⟩
    have hU : ¬(uparam A B C D < 0 ∨ 1 < uparam A B C D) := by
      push_neg; exact ⟨hu0, hu1⟩
    simp only [calc_intersection, if_neg h', if_neg hT, if_neg hU]

/-- Witness for `calc_intersection_characterization` on two crossing
diagonals, whose intersection is `(1,1)`. -/
theorem calc_intersection_characterization_witness :
    compare_tolerance ≤ |denominator ⟨0, 0⟩ ⟨2, 2⟩ ⟨0, 2⟩ ⟨2, 0⟩| ∧
    0 ≤ tparam ⟨0, 0⟩ ⟨2, 2⟩ ⟨0, 2⟩ ⟨2, 0⟩ ∧
    calc_intersection ⟨0, 0⟩ ⟨2, 2⟩ ⟨0, 2⟩ ⟨2, 0⟩ = some ⟨1, 1⟩ :=
  ⟨by with_unfolding_all decide, by with_unfolding_all decide,
    ((((calc_intersection_characterization ⟨0, 0⟩ ⟨2, 2⟩ ⟨0, 2⟩ ⟨2, 0⟩).2
      (by with_unfolding_all decide)).2
      (by with_unfolding_all decide) (by with_unfolding_all decide)
      (by with_unfolding_all decide) (by with_unfolding_all decide)).trans
      (by with_unfolding_all decide))⟩

lemma denominator_swap (A B C D : point) :
    denominator C D A B = -denominator A B C D := by
  unfold denominator; ring

lemma tparam_swap (A B C D : point) : tparam C D A B = uparam A B C D := by
  unfold tparam uparam
  rw [denominator_swap,
    show (C.x - A.x) * (A.y - B.y) - (C.y - A.y) * (A.x - B.x)
      = -((A.x - C.x) * (A.y - B.y) - (A.y - C.y) * (A.x - B.x)) from by ring,
    neg_div_neg_eq]

lemma uparam_swap (A B C D : point) : uparam C D A B = tparam A B C D := by
  unfold uparam tparam
  rw [denominator_swap,
    show (C.x - A.x) * (C.y - D.y) - (C.y - A.y) * (C.x - D.x)
      = -((A.x - C.x) * (C.y - D.y) - (A.y - C.y) * (C.x - D.x)) from by ring,
    neg_div_neg_eq]

/-- The point returned for `A→B` equals the point parametrised along `C→D`. -/
lemma intersection_point_eq (A B C D : point) (hden : denominator A B C D ≠ 0) :
    A.x + tparam A B C D * (B.x - A.x) = C.x + uparam A B C D * (D.x - C.x) ∧
    A.y + tparam A B C D * (B.y - A.y) = C.y + uparam A B C D * (D.y - C.y) := by
  unfold tparam uparam
  unfold denominator at hden ⊢
  constructor <;> (field_simp; ring)

/-- C6: `calc_intersection (A,B,C,D)` and `calc_intersection (C,D,A,B)` agree
on whether an intersection exists, and when both return a point the two
points are approximately equal (here: exactly equal coordinates). -/
theorem calc_intersection_symm (A B C D : point) :
    (calc_intersection A B C D).isSome = (calc_intersection C D A B).isSome ∧
    (∀ P Q : point, calc_intersection A B C D = some P →
      calc_intersection C D A B = some Q → ptEq P Q = true) := by
  have hd := denominator_swap A B C D
  have ht := tparam_swap A B C D
  have hu := uparam_swap A B C D
  constructor
  · simp only [calc_intersection, hd, abs_neg, ht, hu]
    by_cases h1 : |denominator A B C D| < compare_tolerance
    · simp [h1]
    · by_cases h2 : tparam A B C D < 0 ∨ 1 < tparam A B C D <;>
        by_cases h3 : uparam A B C D < 0 ∨ 1 < uparam A B C D <;>
          simp [h1, h2, h3]
  · intro P Q hP hQ
    unfold calc_intersection at hP hQ
    rw [hd, abs_neg, ht, hu] at hQ
    split_ifs at hP hQ with h1 h2 h3
    injection hP with hP
    injection hQ with hQ
    have hden : denominator A B C D ≠ 0 := by
      intro h0
      rw [h0] at h1
      exact h1 (by rw [abs_zero]; with_unfolding_all decide)
    obtain ⟨hx, hy⟩ := intersection_point_eq A B C D hden
    subst hP; subst hQ
    simp only [ptEq, hx, hy, sub_self, abs_zero, decide_eq_true_eq]
    constructor <;> with_unfolding_all decide

/-- Witness for `calc_intersection_symm`: both orders return `(1,1)`. -/
theorem calc_intersection_symm_witness :
    calc_intersection ⟨0, 0⟩ ⟨2, 2⟩ ⟨0, 2⟩ ⟨2, 0⟩ = some ⟨1, 1⟩ ∧
    calc_intersection ⟨0, 2⟩ ⟨2, 0⟩ ⟨0, 0⟩ ⟨2, 2⟩ = some ⟨1, 1⟩ ∧
    ptEq ⟨1, 1⟩ ⟨1, 1⟩ = true :=
  ⟨by with_unfolding_all decide, by with_unfolding_all decide,
    (calc_intersection_symm ⟨0, 0⟩ ⟨2, 2⟩ ⟨0, 2⟩ ⟨2, 0⟩).2 ⟨1, 1⟩ ⟨1, 1⟩
      (by with_unfolding_all decide) (by with_unfolding_all decide)⟩

/-- C7: non-parallel segments touching exactly at an endpoint (`t` or `u`
equal to `0` or `1`, all parameters in the closed interval `[0,1]`) are
reported as intersecting. -/
theorem boundary_inclusion (A B C D : point)
    (hden : compare_tolerance ≤ |denominator A B C D|)
    (_hend : tparam A B C D = 0 ∨ tparam A B C D = 1 ∨
            uparam A B C D = 0 ∨ uparam A B C D = 1)
    (ht0 : 0 ≤ tparam A B C D) (ht1 : tparam A B C D ≤ 1)
    (hu0 : 0 ≤ uparam A B C D) (hu1 : uparam A B C D ≤ 1) :
    (calc_intersection A B C D).isSome = true := by
  have hT : ¬(tparam A B C D < 0 ∨ 1 < tparam A B C D) := by
    push_neg; exact ⟨ht0, ht1⟩
  have hU : ¬(uparam A B C D < 0 ∨ 1 < uparam A B C D) := by
    push_neg; exact ⟨hu0, hu1⟩
  simp only [calc_intersection, if_neg (not_lt.mpr hden), if_neg hT, if_neg hU,
    Option.isSome_some]

/-- Witness for `boundary_inclusion`: two segments sharing the endpoint
`(0,0)`, with `t = u = 0`. -/
theorem boundary_inclusion_witness :
    tparam ⟨0, 0⟩ ⟨2, 0⟩ ⟨0, 0⟩ ⟨0, 2⟩ = 0 ∧
    (calc_intersection ⟨0, 0⟩ ⟨2, 0⟩ ⟨0, 0⟩ ⟨0, 2⟩).isSome = true :=
  ⟨by with_unfolding_all decide,
    boundary_inclusion ⟨0, 0⟩ ⟨2, 0⟩ ⟨0, 0⟩ ⟨0, 2⟩
      (by with_unfolding_all decide)
      (Or.inl (by with_unfolding_all decide))
      (by with_unfolding_all decide) (by with_unfolding_all decide)
      (by with_unfolding_all decide) (by with_unfolding_all decide)⟩

/-- C9: on every failing call, the out-parameter has been overwritten to
`(0,0)` regardless of its prior value, and the result does not depend on the
prior value at all. -/
theorem calc_intersection_out_failure (A B C D pt0 pt1 : point)
    (h : (calc_intersection_out A B C D pt0).1 = false) :
    (calc_intersection_out A B C D pt0).2 = ⟨0, 0⟩ ∧
    calc_intersection_out A B C D pt0 = calc_intersection_out A B C D pt1 := by
  refine ⟨?_, rfl⟩
  unfold calc_intersection_out at h ⊢
  split_ifs at h ⊢ <;> simp_all

/-- Witness for `calc_intersection_out_failure` on parallel segments with a
nonzero prior out-value. -/
theorem calc_intersection_out_failure_witness :
    (calc_intersection_out ⟨0, 0⟩ ⟨1, 0⟩ ⟨0, 1⟩ ⟨1, 1⟩ ⟨5, 7⟩).1 = false ∧
    (calc_intersection_out ⟨0, 0⟩ ⟨1, 0⟩ ⟨0, 1⟩ ⟨1, 1⟩ ⟨5, 7⟩).2 = ⟨0, 0⟩ ∧
    calc_intersection_out ⟨0, 0⟩ ⟨1, 0⟩ ⟨0, 1⟩ ⟨1, 1⟩ ⟨5, 7⟩ =
      calc_intersection_out ⟨0, 0⟩ ⟨1, 0⟩ ⟨0, 1⟩ ⟨1, 1⟩ ⟨9, 9⟩ :=
  ⟨by with_unfolding_all decide,
    (calc_intersection_out_failure ⟨0, 0⟩ ⟨1, 0⟩ ⟨0, 1⟩ ⟨1, 1⟩ ⟨5, 7⟩ ⟨9, 9⟩
      (by with_unfolding_all decide)).1,
    (calc_intersection_out_failure ⟨0, 0⟩ ⟨1, 0⟩ ⟨0, 1⟩ ⟨1, 1⟩ ⟨5, 7⟩ ⟨9, 9⟩
      (by with_unfolding_all decide)).2⟩

/-! ### Intersection aggregator -/

/-- All index pairs `i < j < n` in the lexicographic order of the nested
loops of `calc_intersections`. -/
def segment_pairs (n : ℕ) : List (ℕ × ℕ) :=
  (List.range (n - 1)).flatMap fun i =>
    (List.range' (i + 1) (n - (i + 1))).map fun j => (i, j)

/-- The body of the pair loop of `calc_intersections` (source lines 161-169):
compute the intersection of segments `ij.1` and `ij.2`; if found, record it
on both segments with the dedup guard. -/
def apply_pair (segments : List line_segment) (acc : List (List point)) (ij : ℕ × ℕ) :
    List (List point) :=
  match calc_intersection_ls (segments.getD ij.1 default_segment)
      (segments.getD ij.2 default_segment) with
  | some pt => record_pt (record_pt acc ij.1 pt) ij.2 pt
  | none => acc

lemma foldl_flatMap {α β γ : Type} (g : α → List β) (f : γ → β → γ) (l : List α) (init : γ) :
    (l.flatMap g).foldl f init = l.foldl (fun acc x => (g x).foldl f acc) init := by
  induction l generalizing init with
  | nil => rfl
  | cons x l ih => rw [List.flatMap_cons, List.foldl_append, List.foldl_cons, ih]

/-- The nested pair loops equal one fold over the pair list. -/
lemma calc_intersections_eq_pairs (segments : List line_segment) (acc : List (List point)) :
    calc_intersections segments acc =
      (segment_pairs segments.length).foldl (apply_pair segments) acc := by
  unfold calc_intersections segment_pairs
  rw [foldl_flatMap]
  simp only [List.foldl_map]
  rfl

lemma mem_segment_pairs (n i j : ℕ) : (i, j) ∈ segment_pairs n ↔ i < j ∧ j < n := by
  unfold segment_pairs
  simp only [List.mem_flatMap, List.mem_range, List.mem_map, List.mem_range'_1,
    Prod.mk.injEq]
  constructor
  · rintro ⟨a, ha, b, ⟨hb1, hb2⟩, rfl, rfl⟩
    omega
  · rintro ⟨hij, hj⟩
    exact ⟨i, by omega, j, ⟨by omega, by omega⟩, rfl, rfl⟩

lemma segment_pairs_nodup (n : ℕ) : (segment_pairs n).Nodup := by
  unfold segment_pairs
  rw [List.nodup_flatMap]
  constructor
  · intro i _
    exact List.Nodup.map (fun a b h => by simpa using h) (List.nodup_range' _ _)
  · refine (List.pairwise_lt_range _).imp fun hab => ?_
    intro x hxa hxb
    simp only [List.mem_map] at hxa hxb
    obtain ⟨j1, _, rfl⟩ := hxa
    obtain ⟨j2, _, h2⟩ := hxb
    have := (Prod.mk.injEq _ _ _ _).mp h2
    omega

lemma foldl_invariant {α β : Type} (f : β → α → β) (P : β → Prop)
    (hf : ∀ b a, P b → P (f b a)) :
    ∀ (l : List α) (b : β), P b → P (l.foldl f b) := by
  intro l
  induction l with
  | nil => intro b hb; exact hb
  | cons x l ih => intro b hb; exact ih _ (hf _ _ hb)

lemma calc_intersections_length (segments : List line_segment) (acc : List (List point)) :
    (calc_intersections segments acc).length = acc.length := by
  rw [calc_intersections_eq_pairs]
  refine foldl_invariant _ (fun xss : List (List point) => xss.length = acc.length) ?_ _ _ rfl
  intro b ij hb
  unfold apply_pair
  split
  · simp [record_pt, hb]
  · exact hb

/-- C4: the aggregator is one pass of the pair body over the list of pairs
`i < j`, that list contains every such pair exactly once, and the output has
one entry per input segment. -/
theorem calc_intersections_characterization (segments : List line_segment)
    (acc : List (List point)) :
    calc_intersections segments acc =
      (segment_pairs segments.length).foldl (apply_pair segments) acc ∧
    (∀ i j : ℕ, (i, j) ∈ segment_pairs segments.length ↔ i < j ∧ j < segments.length) ∧
    (segment_pairs segments.length).Nodup ∧
    (calc_intersections segments acc).length = acc.length :=
  ⟨calc_intersections_eq_pairs segments acc,
   fun i j => mem_segment_pairs segments.length i j,
   segment_pairs_nodup segments.length,
   calc_intersections_length segments acc⟩

/-! ### Tolerance dedup invariant -/

lemma ptEq_false_iff (a b : point) :
    ptEq a b = false ↔
      compare_tolerance ≤ |a.x - b.x| ∨ compare_tolerance ≤ |a.y - b.y| := by
  simp only [ptEq, decide_eq_false_iff_not, not_and_or, not_lt]

lemma find_point_false_iff (pts : List point) (pt : point) :
    find_point pts pt = false ↔ ∀ p ∈ pts, ptEq p pt = false := by
  simp [find_point]

lemma insert_pt_pairwise {pts : List point} (pt : point)
    (h : pts.Pairwise (fun a b => ptEq a b = false)) :
    (insert_pt pts pt).Pairwise (fun a b => ptEq a b = false) := by
  unfold insert_pt
  split
  · exact h
  · rename_i hfind
    rw [List.pairwise_append]
    refine ⟨h, List.pairwise_singleton _ _, fun a ha b hb => ?_⟩
    rw [List.mem_singleton] at hb
    have hf : find_point pts pt = false := by simpa using hfind
    rw [hb]
    exact (find_point_false_iff pts pt).mp hf a ha

/-- Every per-segment list holds pairwise non-approximately-equal points. -/
def seglists_ok (xss : List (List point)) : Prop :=
  ∀ l ∈ xss, l.Pairwise (fun a b => ptEq a b = false)

lemma record_pt_ok {xss : List (List point)} (h : seglists_ok xss) (i : ℕ) (pt : point) :
    seglists_ok (record_pt xss i pt) := by
  intro l hl
  unfold record_pt at hl
  rcases List.mem_or_eq_of_mem_set hl with hmem | rfl
  · exact h l hmem
  · apply insert_pt_pairwise
    by_cases hi : i < xss.length
    · rw [List.getD_eq_getElem _ _ hi]
      exact h _ (List.getElem_mem hi)
    · rw [List.getD_eq_default _ _ (by omega)]
      exact List.Pairwise.nil

lemma calc_intersections_ok (segments : List line_segment) (acc : List (List point))
    (hacc : seglists_ok acc) : seglists_ok (calc_intersections segments acc) := by
  rw [calc_intersections_eq_pairs]
  refine foldl_invariant _ seglists_ok ?_ _ _ hacc
  intro b ij hb
  unfold apply_pair
  split
  · exact record_pt_ok (record_pt_ok hb _ _) _ _
  · exact hb

/-- C5: after aggregation, any two points at distinct positions of the same
segment's sequence differ by at least the tolerance in `x` or in `y`. -/
theorem calc_intersections_dedup (segments : List line_segment) (l : List point)
    (hl : l ∈ calc_intersections segments (List.replicate segments.length []))
    (p q : ℕ) (hp : p < l.length) (hq : q < l.length) (hpq : p ≠ q) :
    compare_tolerance ≤ |(l.get ⟨p, hp⟩).x - (l.get ⟨q, hq⟩).x| ∨
    compare_tolerance ≤ |(l.get ⟨p, hp⟩).y - (l.get ⟨q, hq⟩).y| := by
  have hok : seglists_ok (calc_intersections segments
      (List.replicate segments.length [])) := by
    apply calc_intersections_ok
    intro l' hl'
    rw [List.eq_of_mem_replicate hl']
    exact List.Pairwise.nil
  have hpair := hok l hl
  rw [List.pairwise_iff_get] at hpair
  rcases Nat.lt_or_ge p q with hlt | hge
  · have hfalse := hpair ⟨p, hp⟩ ⟨q, hq⟩ hlt
    exact (ptEq_false_iff _ _).mp hfalse
  · have hqp : q < p := by omega
    have hfalse := hpair ⟨q, hq⟩ ⟨p, hp⟩ hqp
    rcases (ptEq_false_iff _ _).mp hfalse with h | h
    · left; rwa [abs_sub_comm]
    · right; rwa [abs_sub_comm]

/-- Witness for `calc_intersections_dedup`: three segments, the first crossed
at `(1,0)` and `(3,0)`. -/
theorem calc_intersections_dedup_witness :
    ([⟨1, 0⟩, ⟨3, 0⟩] : List point) ∈
      calc_intersections
        [⟨⟨0, 0⟩, ⟨4, 0⟩⟩, ⟨⟨1, -1⟩, ⟨1, 1⟩⟩, ⟨⟨3, -1⟩, ⟨3, 1⟩⟩]
        (List.replicate
          ([⟨⟨0, 0⟩, ⟨4, 0⟩⟩, ⟨⟨1, -1⟩, ⟨1, 1⟩⟩, ⟨⟨3, -1⟩, ⟨3, 1⟩⟩] :
            List line_segment).length []) ∧
    (compare_tolerance ≤
        |(([⟨1, 0⟩, ⟨3, 0⟩] : List point).get ⟨0, by decide⟩).x -
          (([⟨1, 0⟩, ⟨3, 0⟩] : List point).get ⟨1, by decide⟩).x| ∨
      compare_tolerance ≤
        |(([⟨1, 0⟩, ⟨3, 0⟩] : List point).get ⟨0, by decide⟩).y -
          (([⟨1, 0⟩, ⟨3, 0⟩] : List point).get ⟨1, by decide⟩).y|) :=
  ⟨by with_unfolding_all decide,
    calc_intersections_dedup
      [⟨⟨0, 0⟩, ⟨4, 0⟩⟩, ⟨⟨1, -1⟩, ⟨1, 1⟩⟩, ⟨⟨3, -1⟩, ⟨3, 1⟩⟩]
      [⟨1, 0⟩, ⟨3, 0⟩] (by with_unfolding_all decide)
      0 1 (by decide) (by decide) (by decide)⟩

/-! ### Full pipeline -/

/-- C8: with fewer than three segments the pipeline emits no triangle: the
caller's vector is returned unchanged together with its length. -/
theorem few_segments_no_triangles (segments : List line_segment) (tr : List triangle)
    (h : segments.length < 3) :
    calc_triangles segments tr = (tr.length, tr) := by
  have hlen : (calc_intersections segments
      (List.replicate segments.length [])).length = segments.length := by
    rw [calc_intersections_length, List.length_replicate]
  simp only [calc_triangles, calc_triangles_pts]
  rw [hlen, show segments.length - 2 = 0 from by omega]
  rfl

/-- Witness for `few_segments_no_triangles`: two crossing segments (their
intersection exists) still give zero triangles. -/
theorem few_segments_no_triangles_witness :
    ([⟨⟨0, 0⟩, ⟨2, 2⟩⟩, ⟨⟨0, 2⟩, ⟨2, 0⟩⟩] : List line_segment).length < 3 ∧
    (calc_intersection_ls ⟨⟨0, 0⟩, ⟨2, 2⟩⟩ ⟨⟨0, 2⟩, ⟨2, 0⟩⟩).isSome = true ∧
    calc_triangles [⟨⟨0, 0⟩, ⟨2, 2⟩⟩, ⟨⟨0, 2⟩, ⟨2, 0⟩⟩] ([] : List triangle) = (0, []) :=
  ⟨by decide, by with_unfolding_all decide,
    few_segments_no_triangles [⟨⟨0, 0⟩, ⟨2, 2⟩⟩, ⟨⟨0, 2⟩, ⟨2, 0⟩⟩] [] (by decide)⟩

/-- C10: the top-level `calc_triangles` appends the found triangles after the
caller's pre-existing ones without clearing, and returns the final total
length of the vector, not the number found in this call. -/
theorem calc_triangles_appends (segments : List line_segment) (tr : List triangle) :
    (calc_triangles segments tr).2 = tr ++ (calc_triangles segments []).2 ∧
    (calc_triangles segments tr).1 = (calc_triangles segments tr).2.length := by
  constructor
  · rw [show (calc_triangles segments tr).2 = calc_triangles_pts
        (calc_intersections segments (List.replicate segments.length [])) tr from rfl,
      show (calc_triangles segments []).2 = calc_triangles_pts
        (calc_intersections segments (List.replicate segments.length [])) [] from rfl,
      calc_triangles_pts_eq, calc_triangles_pts_eq, List.nil_append]
  · rfl

end FindTriangles
